import Mathlib

/-!
Verification of the oec terminal controller against its specification.

The definitions below are a shallow embedding of the Python source:
byte buffers become `List Nat`, machine integers become `Nat`/`Int`,
fallible code returns `Except`, and device I/O is made explicit (commands
issued are returned as values, values read from the device are passed in
as arguments).
-/

/-- Python errors raised by the modelled code. -/
inductive PyError where
  | valueError (msg : String)
  | runtimeError (msg : String)
  | typeError (msg : String)
deriving DecidableEq, Repr

/-! ### List helpers mirroring Python slicing and more_itertools -/

/-- Effective index of a Python slice endpoint `k` (which may be negative)
for a sequence of length `len`: negative values count from the end and the
result is clamped at zero. -/
def pySliceIndex (len : Nat) (k : Int) : Nat :=
  (if 0 ≤ k then k else (len : Int) + k).toNat

/-- Python `data[:k]`. -/
def pyTake (l : List Nat) (k : Int) : List Nat :=
  l.take (pySliceIndex l.length k)

/-- Python `data[k:]`. -/
def pyDrop (l : List Nat) (k : Int) : List Nat :=
  l.drop (pySliceIndex l.length k)

/-- `more_itertools.chunked`: break a list into contiguous chunks of `n`
elements, the last chunk possibly shorter.  For `n = 0` the Python
generator terminates immediately, producing no chunks. -/
def chunked (n : Nat) : List α → List (List α)
  | [] => []
  | x :: xs =>
    if n = 0 then []
    else (x :: xs).take n :: chunked n ((x :: xs).drop n)
termination_by l => l.length
decreasing_by
  simp only [List.length_drop, List.length_cons]
  omega

/-! ### Jumbo write splitting (device.py / terminal.py `_jumbo_write_split_data`) -/

/-- The argument to a write command: either plain bytes or a
`(pattern, count)` repetition pair, mirroring the two forms the Python
code accepts (`bytes` vs `tuple`). -/
inductive JumboData where
  | bytes (data : List Nat)
  | pattern (pat : List Nat) (count : Nat)
deriving DecidableEq, Repr

/-- Python `data[0] * data[1]` for the tuple form; the identity otherwise. -/
def JumboData.expand : JumboData → List Nat
  | .bytes d => d
  | .pattern p c => (List.replicate c p).flatten

/-- The length computation of `_jumbo_write_split_data`:
`len(data[0]) * data[1]` for a tuple, `len(data)` otherwise. -/
def JumboData.length : JumboData → Nat
  | .bytes d => d.length
  | .pattern p c => p.length * c

/-- `_jumbo_write_split_data(data, max_length, first_chunk_max_length_adjustment)`
from `device.py` (textually identical in `terminal.py`). -/
def jumbo_write_split_data (data : JumboData) (max_length : Option Nat)
    (first_chunk_max_length_adjustment : Int) : List JumboData :=
  match max_length with
  | none => [data]
  | some m =>
    let length := data.length
    let first_chunk_max_length : Int := (m : Int) + first_chunk_max_length_adjustment
    if (length : Int) ≤ first_chunk_max_length then
      [data]
    else
      let d := data.expand
      JumboData.bytes (pyTake d first_chunk_max_length) ::
        (chunked m (pyDrop d first_chunk_max_length)).map JumboData.bytes

/-! ### Device jumbo writes (device.py `Device.execute_jumbo_write`) -/

/-- The `COAX_JUMBO` strategy resolved by the interface wrapper. -/
inductive JumboWriteStrategy where
  | split
  | ignore
deriving DecidableEq, Repr

/-- The slice of `InterfaceWrapper` state that `Device.execute_jumbo_write`
consults. -/
structure InterfaceConfig where
  jumbo_write_strategy : Option JumboWriteStrategy
  jumbo_write_max_length : Option Nat
deriving DecidableEq, Repr

/-- The maximum chunk length chosen by `Device.execute_jumbo_write`:
a device attached through a 3299 multiplexer port (`device_address` not
`None`) is always capped at 1024 bytes; a direct-attached device follows
the interface's configured strategy. -/
def device_jumbo_write_max_length (device_address : Option Nat)
    (interface : InterfaceConfig) : Option Nat :=
  if device_address.isSome then some 1024
  else if interface.jumbo_write_strategy = some .split then
    interface.jumbo_write_max_length
  else none

/-- The chunks sent by `Device.execute_jumbo_write`: the first becomes the
`create_first` command, the rest become `create_subsequent` commands. -/
def device_execute_jumbo_write_chunks (device_address : Option Nat)
    (interface : InterfaceConfig) (data : JumboData)
    (first_chunk_max_length_adjustment : Int) : List JumboData :=
  jumbo_write_split_data data
    (device_jumbo_write_max_length device_address interface)
    first_chunk_max_length_adjustment

/-! ### Poll delay (controller.py `Controller._calculate_poll_delay`) -/

/-- `Controller._calculate_poll_delay`: time (in seconds, modelled as `ℚ`)
until the next attached-device poll is due.  `last_attached_poll_time` is
`None` before any attached-device poll has happened; `now` is the value
`time.perf_counter()` would return. -/
def calculate_poll_delay (last_attached_poll_time : Option ℚ)
    (attached_poll_period : ℚ) (now : ℚ) : ℚ :=
  match last_attached_poll_time with
  | none => 0
  | some t => max ((t + attached_poll_period) - now) 0

/-! ### Terminal POLL actions (terminal.py `Terminal.poll`) -/

/-- The coax `PollAction` values used by `Terminal.poll`. -/
inductive PollAction where
  | none
  | alarm
  | enable_keyboard_clicker
  | disable_keyboard_clicker
deriving DecidableEq, Repr

/-- The slice of `Terminal` state read and written by `poll`:
the queued alarm flag, the keyboard's desired clicker state, and the
clicker state acknowledged by the last successful POLL (`None` until
one has been acknowledged). -/
structure TerminalPollState where
  alarm : Bool
  keyboard_clicker : Bool
  last_poll_keyboard_clicker : Option Bool
deriving DecidableEq, Repr

/-- The action `Terminal.poll` merges into the POLL command: a queued alarm
first, then a keyboard clicker change, then `NONE`. -/
def terminal_poll_action (st : TerminalPollState) : PollAction :=
  if st.alarm then .alarm
  else if some st.keyboard_clicker ≠ st.last_poll_keyboard_clicker then
    if st.keyboard_clicker then .enable_keyboard_clicker
    else .disable_keyboard_clicker
  else .none

/-- `Terminal.poll`: computes the action, executes the POLL command and,
only when execution did not raise, clears the queued alarm or records the
acknowledged clicker state.  `execute_ok` tells whether the interface's
`execute` call succeeded; when it raises, the exception propagates with
the flags untouched (the state component of the result is unchanged). -/
def terminal_poll (st : TerminalPollState) (execute_ok : Bool) :
    TerminalPollState × PollAction × Bool :=
  let poll_action := terminal_poll_action st
  if execute_ok then
    let st' :=
      if poll_action = .alarm then { st with alarm := false }
      else if poll_action = .enable_keyboard_clicker ∨
          poll_action = .disable_keyboard_clicker then
        { st with last_poll_keyboard_clicker := some st.keyboard_clicker }
      else st
    (st', poll_action, true)
  else (st, poll_action, false)

/-! ### Terminal creation (terminal.py `create_terminal`) -/

/-- Terminal types reported by `READ_TERMINAL_ID` (coax `TerminalType`). -/
inductive TerminalType where
  | CUT
  | DFT
deriving DecidableEq, Repr

/-- The fields of the coax `TerminalId` used by `create_terminal`. -/
structure TerminalId where
  type : TerminalType
  model : Nat
  keyboard : Nat
deriving DecidableEq, Repr

/-- Screen dimensions, excluding the status line row (display.py). -/
structure Dimensions where
  rows : Nat
  columns : Nat
deriving DecidableEq, Repr

/-- terminal.py `MODEL_DIMENSIONS`. -/
def MODEL_DIMENSIONS (model : Nat) : Option Dimensions :=
  if model = 2 then some ⟨24, 80⟩
  else if model = 3 then some ⟨32, 80⟩
  else if model = 4 then some ⟨43, 80⟩
  else if model = 5 then some ⟨27, 132⟩
  else none

/-- The exceptions distinguished by the attach path:
`UnsupportedDeviceError` is defined in device.py, `UnsupportedTerminalError`
in terminal.py. -/
inductive AttachError where
  | unsupportedDevice (msg : String)
  | unsupportedTerminal (msg : String)
deriving DecidableEq, Repr

/-- Is the error an `UnsupportedDeviceError`? -/
def AttachError.is_unsupported_device : AttachError → Bool
  | .unsupportedDevice _ => true
  | .unsupportedTerminal _ => false

/-- Is the error an `UnsupportedTerminalError`? -/
def AttachError.is_unsupported_terminal : AttachError → Bool
  | .unsupportedDevice _ => false
  | .unsupportedTerminal _ => true

/-- The validation performed by `create_terminal` before constructing the
`Terminal`: reject non-CUT terminals, then look the model up in
`MODEL_DIMENSIONS`, rejecting models not in the table. -/
def create_terminal_validate (terminal_id : TerminalId) :
    Except AttachError Dimensions :=
  if terminal_id.type ≠ .CUT then
    .error (.unsupportedTerminal "Only CUT type terminals are supported")
  else
    match MODEL_DIMENSIONS terminal_id.model with
    | none =>
      .error (.unsupportedTerminal
        ("Model " ++ toString terminal_id.model ++ " is not supported"))
    | some dimensions => .ok dimensions

/-! ### Keyboard (keyboard.py) -/

/-- keyboard.py `KeyboardModifiers`: a bitset of modifier flags. -/
structure KeyboardModifiers where
  left_shift : Bool
  right_shift : Bool
  left_alt : Bool
  right_alt : Bool
  caps_lock : Bool
deriving DecidableEq, Repr

/-- `KeyboardModifiers.NONE`. -/
def KeyboardModifiers.NONE : KeyboardModifiers :=
  ⟨false, false, false, false, false⟩

/-- Bitwise OR of modifier sets (`self.modifiers |= modifier`). -/
def KeyboardModifiers.or (a b : KeyboardModifiers) : KeyboardModifiers :=
  ⟨a.left_shift || b.left_shift, a.right_shift || b.right_shift,
    a.left_alt || b.left_alt, a.right_alt || b.right_alt,
    a.caps_lock || b.caps_lock⟩

/-- Bitwise AND-NOT (`self.modifiers &= ~modifier`). -/
def KeyboardModifiers.andNot (a b : KeyboardModifiers) : KeyboardModifiers :=
  ⟨a.left_shift && !b.left_shift, a.right_shift && !b.right_shift,
    a.left_alt && !b.left_alt, a.right_alt && !b.right_alt,
    a.caps_lock && !b.caps_lock⟩

/-- Bitwise XOR (`self.modifiers ^= KeyboardModifiers.CAPS_LOCK`). -/
def KeyboardModifiers.xor (a b : KeyboardModifiers) : KeyboardModifiers :=
  ⟨a.left_shift ^^ b.left_shift, a.right_shift ^^ b.right_shift,
    a.left_alt ^^ b.left_alt, a.right_alt ^^ b.right_alt,
    a.caps_lock ^^ b.caps_lock⟩

/-- `KeyboardModifiers.is_shift`. -/
def KeyboardModifiers.is_shift (m : KeyboardModifiers) : Bool :=
  m.left_shift || m.right_shift

/-- `KeyboardModifiers.is_alt`. -/
def KeyboardModifiers.is_alt (m : KeyboardModifiers) : Bool :=
  m.left_alt || m.right_alt

/-- `KeyboardModifiers.is_caps_lock`. -/
def KeyboardModifiers.is_caps_lock (m : KeyboardModifiers) : Bool :=
  m.caps_lock

/-- The `Key` enumeration, restricted to the keys the modifier state
machine distinguishes (the five modifier keys) plus representative
ordinary keys; all remaining members of the Python enumeration behave
like the representative non-modifier keys here. -/
inductive Key where
  | LEFT_SHIFT
  | RIGHT_SHIFT
  | LEFT_ALT
  | RIGHT_ALT
  | CAPS_LOCK
  | LOWER_A
  | UPPER_A
  | ENTER
  | SPACE
deriving DecidableEq, Repr

/-- keyboard.py `KEY_UPPER_MAP` (restricted to the keys modelled). -/
def KEY_UPPER_MAP : Key → Option Key
  | .LOWER_A => some .UPPER_A
  | _ => none

/-- keyboard.py `KEY_LOWER_MAP` (restricted to the keys modelled). -/
def KEY_LOWER_MAP : Key → Option Key
  | .UPPER_A => some .LOWER_A
  | _ => none

/-- keyboard.py `KEY_MODIFIER_MAP`. -/
def KEY_MODIFIER_MAP : Key → Option KeyboardModifiers
  | .LEFT_SHIFT => some ⟨true, false, false, false, false⟩
  | .RIGHT_SHIFT => some ⟨false, true, false, false, false⟩
  | .LEFT_ALT => some ⟨false, false, true, false, false⟩
  | .RIGHT_ALT => some ⟨false, false, false, true, false⟩
  | .CAPS_LOCK => some ⟨false, false, false, false, true⟩
  | _ => none

/-- `KEY_MODIFIER_MAP.get(key)` where `key` may be `None`. -/
def key_modifier (key : Option Key) : Option KeyboardModifiers :=
  match key with
  | none => none
  | some k => KEY_MODIFIER_MAP k

/-- The keymap `modifier_release` field: either a single sentinel scan code
(an `int` in Python, meaning "the next scan code is a modifier release")
or a mapping from specific release scan codes to the released key. -/
inductive KeymapRelease where
  | single (sentinel : Nat)
  | perKey (map : Nat → Option Key)

/-- `scan_code == self.keymap.modifier_release` (only meaningful for the
single-sentinel style; comparing an `int` with a `dict` in Python is
`False`). -/
def KeymapRelease.is_sentinel (mr : KeymapRelease) (scan_code : Nat) : Bool :=
  match mr with
  | .single c => scan_code == c
  | .perKey _ => false

/-- `scan_code in self.keymap.modifier_release` for the mapping style. -/
def KeymapRelease.contains (mr : KeymapRelease) (scan_code : Nat) : Bool :=
  match mr with
  | .single _ => false
  | .perKey m => (m scan_code).isSome

/-- `self.keymap.modifier_release[scan_code]` for the mapping style. -/
def KeymapRelease.lookup (mr : KeymapRelease) (scan_code : Nat) : Option Key :=
  match mr with
  | .single _ => none
  | .perKey m => m scan_code

/-- keyboard.py `Keymap` (the `name` field is irrelevant here). -/
structure Keymap where
  defaultMap : Nat → Option Key
  shift : Nat → Option Key
  alt : Nat → Option Key
  modifier_release : KeymapRelease

/-- keyboard.py `Keyboard` state. `single_modifier_release` is computed in
the constructor (`True` unless `keymap.modifier_release` is a `Mapping`). -/
structure Keyboard where
  keymap : Keymap
  modifiers : KeyboardModifiers
  single_modifier_release : Bool
  modifier_release : Bool
  clicker : Bool

/-- `Keyboard.__init__`. -/
def Keyboard.mk' (keymap : Keymap) : Keyboard :=
  { keymap := keymap
    modifiers := KeyboardModifiers.NONE
    single_modifier_release :=
      match keymap.modifier_release with
      | .single _ => true
      | .perKey _ => false
    modifier_release := false
    clicker := false }

/-- `Keyboard._apply_modifiers(scan_code, key)`: returns the updated state
and the `(is_modifier, is_modifier_release)` pair (`is_modifier_release`
is `None`, `True` or `False` in Python, hence `Option Bool`). -/
def Keyboard.apply_modifiers (kb : Keyboard) (scan_code : Nat)
    (key : Option Key) : Keyboard × Bool × Option Bool :=
  if kb.single_modifier_release &&
      kb.keymap.modifier_release.is_sentinel scan_code then
    ({ kb with modifier_release := true }, true, none)
  else if (kb.single_modifier_release && kb.modifier_release) ||
      (!kb.single_modifier_release &&
        kb.keymap.modifier_release.contains scan_code) then
    let kb1 := { kb with modifier_release := false }
    let released_key : Option Key :=
      if kb.single_modifier_release then key
      else kb.keymap.modifier_release.lookup scan_code
    match key_modifier released_key with
    | none => (kb1, false, none)
    | some modifier =>
      -- The release of the caps lock key is ignored: it acts as a toggle.
      if modifier.is_caps_lock then (kb1, true, some true)
      else ({ kb1 with modifiers := kb1.modifiers.andNot modifier },
        true, some true)
  else
    match key_modifier key with
    | some modifier =>
      if modifier.is_caps_lock then
        ({ kb with modifiers :=
            kb.modifiers.xor ⟨false, false, false, false, true⟩ },
          true, some false)
      else
        ({ kb with modifiers := kb.modifiers.or modifier }, true, some false)
    | none => (kb, false, none)

/-- `Keyboard.get_key(scan_code)`: returns the updated state together with
the `(key, modifiers, modifiers_changed)` triple. -/
def Keyboard.get_key (kb : Keyboard) (scan_code : Nat) :
    Keyboard × Option Key × KeyboardModifiers × Bool :=
  let key := kb.keymap.defaultMap scan_code
  let original_modifiers := kb.modifiers
  let (kb1, is_modifier, is_modifier_release) :=
    kb.apply_modifiers scan_code key
  if is_modifier then
    (kb1, if is_modifier_release = some true then none else key,
      kb1.modifiers, decide (kb1.modifiers ≠ original_modifiers))
  else
    let key1 :=
      if kb1.modifiers.is_shift then kb1.keymap.shift scan_code
      else if kb1.modifiers.is_alt then kb1.keymap.alt scan_code
      else key
    match key1 with
    | none => (kb1, none, kb1.modifiers, false)
    | some k =>
      let k1 :=
        if kb1.modifiers.is_caps_lock then
          if !kb1.modifiers.is_shift then (KEY_UPPER_MAP k).getD k
          else (KEY_LOWER_MAP k).getD k
        else k
      (kb1, some k1, kb1.modifiers, false)

/-- Feed a sequence of scan codes through `get_key`, keeping only the
resulting keyboard state. -/
def Keyboard.process (kb : Keyboard) (scan_codes : List Nat) : Keyboard :=
  scan_codes.foldl (fun k s => (k.get_key s).1) kb

/-- A single-sentinel-release test keymap (scan codes as in
keymap_3483_102.py: release sentinel 240; 76/77 as in the 3278 default
table). -/
def KEYMAP_SINGLE_TEST : Keymap :=
  { defaultMap := fun s =>
      if s = 77 then some .LEFT_SHIFT
      else if s = 76 then some .CAPS_LOCK
      else none
    shift := fun _ => none
    alt := fun _ => none
    modifier_release := .single 240 }

/-- A per-key-release test keymap (scan codes as in
keymap_3278_typewriter.py: 204 releases CAPS_LOCK, 205 releases
LEFT_SHIFT). -/
def KEYMAP_PERKEY_TEST : Keymap :=
  { defaultMap := fun s =>
      if s = 77 then some .LEFT_SHIFT
      else if s = 78 then some .RIGHT_SHIFT
      else if s = 76 then some .CAPS_LOCK
      else none
    shift := fun _ => none
    alt := fun _ => none
    modifier_release := .perKey (fun s =>
      if s = 205 then some .LEFT_SHIFT
      else if s = 204 then some .CAPS_LOCK
      else none) }

/-! ### Display and BufferedDisplay (display.py) -/

/-- The kind of jumbo write issued by `Display`: `WRITE_DATA` carries regen
bytes only, `EAB_WRITE_ALTERNATE` carries interleaved regen/EAB bytes. -/
inductive WriteKind where
  | writeData
  | eabWriteAlternate
deriving DecidableEq, Repr

/-- One jumbo write issued to the terminal: the address it targets (the
shadow address counter at issue time; `none` when unknown, in which case
the device uses its own internal counter) and the wire data.  Splitting a
jumbo write into link-layer chunks is handled by `jumbo_write_split_data`
and is content-preserving, so commands are modelled whole. -/
structure WriteCommand where
  start : Option Nat
  kind : WriteKind
  data : JumboData
deriving DecidableEq, Repr

/-- more_itertools `interleave`: alternate elements from the two lists,
stopping when the shorter is exhausted. -/
def interleave (a b : List Nat) : List Nat :=
  (a.zip b).flatMap (fun p => [p.1, p.2])

/-- Interleaving of the regen/EAB write arguments in `Display.write`,
preserving the bytes-vs-(pattern, count) form.  Mixed forms are rejected
by the validation that runs first, so those cases are never reached. -/
def interleave_data : JumboData → JumboData → JumboData
  | .bytes x, .bytes y => .bytes (interleave x y)
  | .pattern p c, .pattern q _ => .pattern (interleave p q) c
  | .bytes x, .pattern _ _ => .bytes x
  | .pattern p c, .bytes _ => .pattern p c

/-- Elements at even positions (the regen plane of interleaved wire data). -/
def evens : List Nat → List Nat
  | [] => []
  | [x] => [x]
  | x :: _ :: rest => x :: evens rest

/-- Elements at odd positions (the EAB plane of interleaved wire data). -/
def odds : List Nat → List Nat
  | [] => []
  | [_] => []
  | _ :: y :: rest => y :: odds rest

/-- The regen-plane bytes a write command carries. -/
def WriteCommand.regen_plane (c : WriteCommand) : List Nat :=
  match c.kind with
  | .writeData => c.data.expand
  | .eabWriteAlternate => evens c.data.expand

/-- The EAB-plane bytes a write command carries. -/
def WriteCommand.eab_plane (c : WriteCommand) : List Nat :=
  match c.kind with
  | .writeData => []
  | .eabWriteAlternate => odds c.data.expand

/-- display.py `Display` state: dimensions, the EAB feature address and the
software shadow of the device's address counter. -/
structure Display where
  dimensions : Dimensions
  eab_address : Option Nat
  address_counter : Option Nat
deriving DecidableEq, Repr

/-- `Display.has_eab`. -/
def Display.has_eab (d : Display) : Bool :=
  d.eab_address.isSome

/-- `(rows + 1) * columns`: the regen buffer length, status line included. -/
def Display.buffer_length (d : Display) : Nat :=
  (d.dimensions.rows + 1) * d.dimensions.columns

/-- display.py `self.last_address = ((rows + 1) * columns) - 1`. -/
def Display.last_address (d : Display) : Nat :=
  d.buffer_length - 1

/-- `Display._calculate_address(address, index, row, column)`. -/
def Display.calculate_address (d : Display)
    (address index row column : Option Nat) : Except PyError (Option Nat) :=
  let a1 := match index with
    | some i => some (d.dimensions.columns + i)
    | none => address
  let a2 := match row, column with
    | some r, some c =>
      some (d.dimensions.columns + r * d.dimensions.columns + c)
    | _, _ => a1
  match a2 with
  | none => .ok none
  | some a =>
    if a > d.last_address then .error (.valueError "Address is out of range")
    else .ok (some a)

/-- `Display._calculate_address_after_write(address, count)`: the shadow is
invalidated to `None` when the device's counter has moved past the last
valid address. -/
def Display.calculate_address_after_write (d : Display)
    (address : Option Nat) (count : Nat) : Option Nat :=
  match address with
  | none => none
  | some a =>
    if a + count > d.last_address then none
    else some (a + count)

/-- `Display._load_address_counter`: only the shadow update is modelled;
which of the hi/lo load commands are sent (those differing from the
shadow, or both under `force_load`) does not affect any state here. -/
def Display.load_address_counter (d : Display) (address : Nat) : Display :=
  { d with address_counter := some address }

/-- `Display._read_address_counter`: `read_value` is the counter value the
device reports; the shadow takes that value. -/
def Display.read_address_counter (d : Display) (read_value : Nat) :
    Display × Nat :=
  ({ d with address_counter := some read_value }, read_value)

/-- The regen/EAB consistency validation at the top of `Display.write`. -/
def eab_write_validate (has_eab : Bool) (regen_data : JumboData)
    (eab_data : Option JumboData) : Option PyError :=
  match eab_data with
  | none => none
  | some e =>
    if !has_eab then some (.runtimeError "No EAB feature")
    else
      match regen_data, e with
      | .pattern p c1, .pattern q c2 =>
        if p.length ≠ q.length then
          some (.valueError "Regen and EAB pattern length must be equal")
        else if c1 ≠ c2 then
          some (.valueError "Regen and EAB pattern count must be equal")
        else none
      | .bytes x, .bytes y =>
        if x.length ≠ y.length then
          some (.valueError "Regen and EAB data length must be equal")
        else none
      | _, _ => some (.valueError "Regen and EAB data must be provided in same form")

/-- `Display.write`: validate, optionally save the original address
(reading it from the device if the shadow is unknown), resolve and load
the target address, issue one jumbo write, advance the shadow past the
written span, and optionally restore the original address. -/
def Display.write (d : Display) (regen_data : JumboData)
    (eab_data : Option JumboData) (address index row column : Option Nat)
    (restore_original_address : Bool) (read_value : Nat) :
    Except PyError (Display × WriteCommand) :=
  match eab_write_validate d.has_eab regen_data eab_data with
  | some e => .error e
  | none =>
    let (d1, original_address) :=
      if restore_original_address then
        match d.address_counter with
        | some a => (d, some a)
        | none =>
          let (d', v) := d.read_address_counter read_value
          (d', some v)
      else (d, none)
    match d1.calculate_address address index row column with
    | .error e => .error e
    | .ok addressOpt =>
      let d2 := match addressOpt with
        | some a => d1.load_address_counter a
        | none => d1
      let cmd : WriteCommand :=
        match eab_data with
        | some e => ⟨d2.address_counter, .eabWriteAlternate,
            interleave_data regen_data e⟩
        | none => ⟨d2.address_counter, .writeData, regen_data⟩
      let count := regen_data.length
      let d3 := { d2 with
        address_counter :=
          d2.calculate_address_after_write d2.address_counter count }
      let d4 := match original_address with
        | some a => d3.load_address_counter a
        | none => d3
      .ok (d4, cmd)

/-- display.py `BufferedDisplay` state: shadow regen/EAB buffers and the
ordered set of dirty buffer indices. -/
structure BufferedDisplay extends Display where
  regen_buffer : List Nat
  eab_buffer : Option (List Nat)
  dirty : Finset Nat
deriving DecidableEq

/-- `BufferedDisplay.__init__`: zero-filled buffers, empty dirty set. -/
def BufferedDisplay.init (dimensions : Dimensions)
    (eab_address : Option Nat) : BufferedDisplay :=
  let length := (dimensions.rows + 1) * dimensions.columns
  { dimensions := dimensions
    eab_address := eab_address
    address_counter := none
    regen_buffer := List.replicate length 0
    eab_buffer :=
      if eab_address.isSome then some (List.replicate length 0) else none
    dirty := ∅ }

/-- The no-change test of `buffered_write_byte`: the regen byte (and, with
the EAB feature, the EAB byte) already has the requested value. -/
def write_byte_unchanged (b : BufferedDisplay) (regen_byte : Nat)
    (eab_byte : Option Nat) (a : Nat) : Bool :=
  (b.regen_buffer.getD a 0 == regen_byte) &&
    (!b.has_eab ||
      (match b.eab_buffer with
       | some buf => eab_byte == some (buf.getD a 0)
       | none => false))

/-- `BufferedDisplay.buffered_write_byte`. -/
def BufferedDisplay.buffered_write_byte (b : BufferedDisplay)
    (regen_byte : Nat) (eab_byte : Option Nat)
    (address index row column : Option Nat) :
    Except PyError (BufferedDisplay × Bool) :=
  if eab_byte.isSome && !b.has_eab then
    .error (.runtimeError "No EAB feature")
  else
    match b.calculate_address address index row column with
    | .error e => .error e
    | .ok none =>
      .error (.valueError "Either address, index or row and column is required")
    | .ok (some a) =>
      if write_byte_unchanged b regen_byte eab_byte a then .ok (b, false)
      else
        let b1 := { b with regen_buffer := b.regen_buffer.set a regen_byte }
        if b1.has_eab then
          match eab_byte, b1.eab_buffer with
          | some v, some buf =>
            .ok ({ b1 with
                eab_buffer := some (buf.set a v),
                dirty := insert a b1.dirty }, true)
          | _, _ => .error (.typeError "unsupported EAB buffer assignment")
        else
          .ok ({ b1 with dirty := insert a b1.dirty }, true)

/-- `itertools.zip_longest` on byte lists, padding with `None`. -/
def zipLongest : List Nat → List Nat → List (Option Nat × Option Nat)
  | [], [] => []
  | x :: xs, [] => (some x, none) :: zipLongest xs []
  | [], y :: ys => (none, some y) :: zipLongest [] ys
  | x :: xs, y :: ys => (some x, some y) :: zipLongest xs ys

/-- The loop body of `BufferedDisplay._commit`: write each regen/EAB byte
pair into the shadow buffers at consecutive addresses, discarding each
address from the dirty set.  Assigning `None` into a `bytearray` is a
Python `TypeError`. -/
def commitPairs (b : BufferedDisplay) (address : Nat) :
    List (Option Nat × Option Nat) → Except PyError BufferedDisplay
  | [] => .ok b
  | (none, _) :: _ => .error (.typeError "unsupported regen buffer assignment")
  | (some r, e) :: rest =>
    let b1 := { b with regen_buffer := b.regen_buffer.set address r }
    match e with
    | none =>
      commitPairs { b1 with dirty := b1.dirty.erase address } (address + 1) rest
    | some v =>
      match b1.eab_buffer with
      | some buf =>
        commitPairs { b1 with
            eab_buffer := some (buf.set address v),
            dirty := b1.dirty.erase address } (address + 1) rest
      | none => .error (.typeError "unsupported EAB buffer assignment")

/-- `BufferedDisplay._commit(start_address, regen_data, eab_data)`. -/
def BufferedDisplay.commit (b : BufferedDisplay) (start_address : Nat)
    (regen_data : JumboData) (eab_data : Option JumboData) :
    Except PyError BufferedDisplay :=
  let expanded_regen_data := regen_data.expand
  let expanded_eab_data := match eab_data with
    | none => []
    | some e => e.expand
  commitPairs b start_address (zipLongest expanded_regen_data expanded_eab_data)

/-- `BufferedDisplay.write`: resolve the start address (reading the device
counter if unknown), perform the unbuffered write, then commit it to the
shadow buffers. -/
def BufferedDisplay.write (b : BufferedDisplay) (regen_data : JumboData)
    (eab_data : Option JumboData) (address index row column : Option Nat)
    (restore_original_address : Bool) (read_value : Nat) :
    Except PyError (BufferedDisplay × WriteCommand) :=
  match b.calculate_address address index row column with
  | .error e => .error e
  | .ok startOpt =>
    let (b0, start_address) :=
      match startOpt with
      | some s => (b, s)
      | none =>
        match b.address_counter with
        | some a => (b, a)
        | none =>
          let (d', v) := b.toDisplay.read_address_counter read_value
          ({ b with toDisplay := d' }, v)
    match b0.toDisplay.write regen_data eab_data address index row column
        restore_original_address read_value with
    | .error e => .error e
    | .ok (d2, cmd) =>
      match BufferedDisplay.commit { b0 with toDisplay := d2 } start_address
          regen_data eab_data with
      | .error e => .error e
      | .ok b3 => .ok (b3, cmd)

/-- Python `buffer[start_address:end_address + 1]`. -/
def buffer_slice (l : List Nat) (start_address end_address : Nat) : List Nat :=
  (l.drop start_address).take (end_address + 1 - start_address)

/-- `BufferedDisplay._write_range`: write a buffer span to the device; a
write error is caught and logged, leaving the state as it was. -/
def BufferedDisplay.write_range (b : BufferedDisplay)
    (start_address end_address : Nat) : BufferedDisplay × List WriteCommand :=
  let regen_data :=
    JumboData.bytes (buffer_slice b.regen_buffer start_address end_address)
  let eab_data := match b.eab_buffer with
    | some buf =>
      some (JumboData.bytes (buffer_slice buf start_address end_address))
    | none => none
  match b.write regen_data eab_data (some start_address) none none none
      false 0 with
  | .ok (b', cmd) => (b', [cmd])
  | .error _ => (b, [])

/-- `BufferedDisplay._get_dirty_ranges`: a single range spanning the lowest
to the highest dirty index (multi-range optimization left as a TODO in the
source). -/
def BufferedDisplay.get_dirty_ranges (b : BufferedDisplay) :
    List (Nat × Nat) :=
  if h : b.dirty.Nonempty then [(b.dirty.min' h, b.dirty.max' h)] else []

/-- `BufferedDisplay.flush`: write every dirty range, reporting whether
anything was flushed. -/
def BufferedDisplay.flush (b : BufferedDisplay) :
    BufferedDisplay × List WriteCommand × Bool :=
  let dirty_ranges := b.get_dirty_ranges
  if dirty_ranges.isEmpty then (b, [], false)
  else
    let (b', cmds) := dirty_ranges.foldl
      (fun acc r =>
        let (b2, cs) := BufferedDisplay.write_range acc.1 r.1 r.2
        (b2, acc.2 ++ cs))
      (b, ([] : List WriteCommand))
    (b', cmds, true)

/-- The device's regen and EAB memory planes, for interpreting the issued
write commands. -/
structure DeviceMemory where
  regen : List Nat
  eab : List Nat
deriving DecidableEq, Repr

/-- Overwrite `mem` with `data` starting at `address`. -/
def writeAt (mem : List Nat) (address : Nat) : List Nat → List Nat
  | [] => mem
  | x :: xs => writeAt (mem.set address x) (address + 1) xs

/-- The effect of one write command on the device memory.  A command with
an unknown start address targets the device's own counter, which is not
tracked here. -/
def WriteCommand.apply (cmd : WriteCommand) (dev : DeviceMemory) :
    DeviceMemory :=
  match cmd.start with
  | none => dev
  | some s =>
    { regen := writeAt dev.regen s cmd.regen_plane
      eab := match cmd.kind with
        | .writeData => dev.eab
        | .eabWriteAlternate => writeAt dev.eab s cmd.eab_plane }

/-- Apply a sequence of write commands to the device memory. -/
def apply_commands (dev : DeviceMemory) (cmds : List WriteCommand) :
    DeviceMemory :=
  cmds.foldl (fun m c => c.apply m) dev

/-- Well-formedness of a `BufferedDisplay`: non-degenerate dimensions,
buffers of the screen length, an EAB buffer exactly when the EAB feature
is present, and dirty indices within the addressable range. -/
def BufferedDisplay.wf (b : BufferedDisplay) : Prop :=
  0 < b.dimensions.columns ∧
  b.regen_buffer.length = b.buffer_length ∧
  b.eab_buffer.isSome = b.has_eab ∧
  (b.eab_buffer.map List.length).getD b.buffer_length = b.buffer_length ∧
  ∀ a ∈ b.dirty, a ≤ b.last_address

/-- Erase the addresses `addr, addr+1, ..., addr+len-1` from a set, the way
the `_commit` loop discards them one by one. -/
def eraseRange (s : Finset Nat) (addr len : Nat) : Finset Nat :=
  match len with
  | 0 => s
  | n + 1 => eraseRange (s.erase addr) (addr + 1) n

/-- The single write command `flush` issues on a non-empty dirty set: the
buffer span from the lowest to the highest dirty index (interleaved with
the EAB span when the feature is present). -/
def flush_command (b : BufferedDisplay) (h : b.dirty.Nonempty) : WriteCommand :=
  match b.eab_buffer with
  | none =>
    ⟨some (b.dirty.min' h), .writeData,
      .bytes (buffer_slice b.regen_buffer (b.dirty.min' h) (b.dirty.max' h))⟩
  | some buf =>
    ⟨some (b.dirty.min' h), .eabWriteAlternate,
      .bytes (interleave
        (buffer_slice b.regen_buffer (b.dirty.min' h) (b.dirty.max' h))
        (buffer_slice buf (b.dirty.min' h) (b.dirty.max' h)))⟩

/-- Does the shadow buffer content at address `a` differ from the device
memory (regen plane, and EAB plane when the feature is present)? -/
def differs_at (b : BufferedDisplay) (dev : DeviceMemory) (a : Nat) : Bool :=
  (b.regen_buffer.getD a 0 != dev.regen.getD a 0) ||
    (match b.eab_buffer with
     | some buf => buf.getD a 0 != dev.eab.getD a 0
     | none => false)

/-- The dirty-set invariant: every address whose buffer content differs
from the device state is in the dirty set (no write is lost). -/
def dirty_inv (b : BufferedDisplay) (dev : DeviceMemory) : Prop :=
  ∀ a ∈ Finset.range b.buffer_length, differs_at b dev a = true → a ∈ b.dirty

/-! ### Theorems -/

theorem pyTake_append_pyDrop (l : List Nat) (k : Int) :
    pyTake l k ++ pyDrop l k = l := by
  simp [pyTake, pyDrop]

theorem chunked_flatten (n : Nat) (l : List α) (hn : n ≠ 0) :
    (chunked n l).flatten = l := by
  match l with
  | [] => rw [chunked]; rfl
  | x :: xs =>
    rw [chunked, if_neg hn, List.flatten_cons,
        chunked_flatten n ((x :: xs).drop n) hn]
    exact List.take_append_drop n (x :: xs)
termination_by l.length
decreasing_by
  simp only [List.length_drop, List.length_cons]
  omega

theorem JumboData.expand_length (d : JumboData) : d.expand.length = d.length := by
  cases d with
  | bytes d => rfl
  | pattern p c =>
    simp [JumboData.expand, JumboData.length, List.length_flatten, Nat.mul_comm]

/-- C3: for every data payload, every maximum chunk length `m > 0` and every
first-chunk adjustment `a` (including the boundary case where the length
equals `m + a`), concatenating the chunks produced by
`_jumbo_write_split_data` reproduces the original data exactly, in order,
with no gaps or overlaps. -/
theorem C3_jumbo_split_concat (data : JumboData) (m : Nat) (a : Int) (hm : 0 < m) :
    ((jumbo_write_split_data data (some m) a).map JumboData.expand).flatten
      = data.expand := by
  rw [jumbo_write_split_data]
  split
  · simp
  · simp only [List.map_cons, List.map_map, List.flatten_cons]
    have h2 : (List.map (JumboData.expand ∘ JumboData.bytes)
        (chunked m (pyDrop data.expand ((m : Int) + a)))).flatten
        = pyDrop data.expand ((m : Int) + a) := by
      have h1 : JumboData.expand ∘ JumboData.bytes = id := rfl
      rw [h1, List.map_id]
      exact chunked_flatten m _ (Nat.pos_iff_ne_zero.mp hm)
    rw [h2, JumboData.expand]
    exact pyTake_append_pyDrop _ _

/-- Witness for C3 at a concrete input (data of length 5, `m = 2`, `a = -1`,
so the first chunk holds 1 byte and the rest are 2-byte chunks). -/
theorem C3_jumbo_split_concat_witness :
    0 < 2 ∧
      ((jumbo_write_split_data (.bytes [10, 20, 30, 40, 50]) (some 2) (-1)).map
          JumboData.expand).flatten = JumboData.expand (.bytes [10, 20, 30, 40, 50]) :=
  ⟨by decide, C3_jumbo_split_concat (.bytes [10, 20, 30, 40, 50]) 2 (-1) (by decide)⟩

/-- C10: a device with a non-`None` device address (attached via a 3299
multiplexer port) always has its jumbo writes split with a maximum chunk
length of 1024 bytes, whatever the interface's strategy; only a
direct-attached device (`device_address = None`) follows the interface's
configured strategy and maximum length. -/
theorem C10_multiplexer_jumbo_write_cap (a : Nat) (interface : InterfaceConfig)
    (data : JumboData) (adj : Int) :
    device_execute_jumbo_write_chunks (some a) interface data adj
        = jumbo_write_split_data data (some 1024) adj ∧
      device_execute_jumbo_write_chunks none interface data adj
        = jumbo_write_split_data data
            (if interface.jumbo_write_strategy = some .split then
              interface.jumbo_write_max_length
            else none) adj := by
  constructor
  · rfl
  · rw [device_execute_jumbo_write_chunks, device_jumbo_write_max_length]
    simp only [Option.isSome_none, Bool.false_eq_true, if_false]

/-- C4: the poll-delay computation never returns a negative value, however
far `now` has drifted past the target time, and it returns 0 when no
attached-device poll has yet occurred. -/
theorem C4_poll_delay_nonneg (last : Option ℚ) (period now : ℚ) :
    0 ≤ calculate_poll_delay last period now ∧
      calculate_poll_delay none period now = 0 := by
  constructor
  · cases last with
    | none => simp [calculate_poll_delay]
    | some t => exact le_max_right _ _
  · rfl

/-- C5: `Terminal.poll` selects its action in priority order ALARM, then
ENABLE/DISABLE keyboard clicker (when the desired clicker state differs
from the last-acknowledged one), then NONE; it clears the pending alarm
flag (or records the acknowledged clicker state) only after the POLL
executes successfully, and leaves the flags unchanged when execution
raises. -/
theorem C5_terminal_poll (st : TerminalPollState) :
    (st.alarm → terminal_poll_action st = .alarm) ∧
      (¬ st.alarm → some st.keyboard_clicker ≠ st.last_poll_keyboard_clicker →
        terminal_poll_action st =
          (if st.keyboard_clicker then .enable_keyboard_clicker
           else .disable_keyboard_clicker)) ∧
      (¬ st.alarm → some st.keyboard_clicker = st.last_poll_keyboard_clicker →
        terminal_poll_action st = .none) ∧
      (terminal_poll st false = (st, terminal_poll_action st, false)) ∧
      (st.alarm →
        terminal_poll st true = ({ st with alarm := false }, .alarm, true)) ∧
      (¬ st.alarm → some st.keyboard_clicker ≠ st.last_poll_keyboard_clicker →
        terminal_poll st true =
          ({ st with last_poll_keyboard_clicker := some st.keyboard_clicker },
            terminal_poll_action st, true)) ∧
      (¬ st.alarm → some st.keyboard_clicker = st.last_poll_keyboard_clicker →
        terminal_poll st true = (st, .none, true)) := by
  obtain ⟨al, kc, last⟩ := st
  refine ⟨?_, ?_, ?_, ?_, ?_, ?_, ?_⟩ <;>
    cases al <;> simp [terminal_poll, terminal_poll_action] <;>
      rcases last with _ | lb <;> cases kc <;> simp_all

/-- Witness for C5 at a concrete state with a queued alarm: the POLL action
is ALARM and a successful POLL clears the alarm flag. -/
theorem C5_terminal_poll_witness :
    terminal_poll ⟨true, false, none⟩ true = (⟨false, false, none⟩, .alarm, true) :=
  (C5_terminal_poll ⟨true, false, none⟩).2.2.2.2.1 rfl

/-- C8 counterexample: for the unsupported model 6 (CUT type),
`create_terminal` raises `UnsupportedTerminalError`, not the
`UnsupportedDeviceError` the claim names. -/
theorem C8_counterexample :
    create_terminal_validate ⟨.CUT, 6, 0⟩
        = .error (.unsupportedTerminal "Model 6 is not supported") ∧
      AttachError.is_unsupported_device
          (.unsupportedTerminal "Model 6 is not supported") = false ∧
      AttachError.is_unsupported_terminal
          (.unsupportedTerminal "Model 6 is not supported") = true :=
  ⟨rfl, rfl, rfl⟩

/-- C8 (amended): `create_terminal` validates the terminal model against the
fixed model-to-dimensions table (model 2 → 24×80, 3 → 32×80, 4 → 43×80,
5 → 27×132) and raises `UnsupportedTerminalError` (not
`UnsupportedDeviceError`) for every CUT terminal whose model is not in the
table. -/
theorem C8_model_validation (terminal_id : TerminalId)
    (hcut : terminal_id.type = .CUT) :
    (terminal_id.model = 2 → create_terminal_validate terminal_id = .ok ⟨24, 80⟩) ∧
      (terminal_id.model = 3 → create_terminal_validate terminal_id = .ok ⟨32, 80⟩) ∧
      (terminal_id.model = 4 → create_terminal_validate terminal_id = .ok ⟨43, 80⟩) ∧
      (terminal_id.model = 5 → create_terminal_validate terminal_id = .ok ⟨27, 132⟩) ∧
      (terminal_id.model ≠ 2 → terminal_id.model ≠ 3 → terminal_id.model ≠ 4 →
        terminal_id.model ≠ 5 →
        ∃ e, create_terminal_validate terminal_id = .error e ∧
          e.is_unsupported_terminal = true) := by
  obtain ⟨ty, model, kb⟩ := terminal_id
  cases hcut
  refine ⟨?_, ?_, ?_, ?_, ?_⟩ <;>
    intros <;>
      simp_all [create_terminal_validate, MODEL_DIMENSIONS,
        AttachError.is_unsupported_terminal]

/-- Witness for C8 (amended): model 3 yields 32×80 and model 6 is rejected
with `UnsupportedTerminalError`. -/
theorem C8_model_validation_witness :
    create_terminal_validate ⟨.CUT, 3, 0⟩ = .ok ⟨32, 80⟩ ∧
      (∃ e, create_terminal_validate ⟨.CUT, 6, 0⟩ = .error e ∧
        e.is_unsupported_terminal = true) :=
  ⟨(C8_model_validation ⟨.CUT, 3, 0⟩ rfl).2.1 rfl,
    (C8_model_validation ⟨.CUT, 6, 0⟩ rfl).2.2.2.2 (by decide) (by decide)
      (by decide) (by decide)⟩

/-- C6: for the single-release keymap style, pressing left shift, then the
release sentinel, then the shift scan code again clears exactly the
left-shift modifier bit; for the per-key-release style each release scan
code clears exactly its associated modifier bit, independent of press
order (pressing left shift and right shift in either order and then
releasing left shift leaves right shift set and all other bits as they
were). -/
theorem C6_modifier_pairing :
    (∀ (kb : Keyboard) (ls r : Nat),
      kb.keymap.modifier_release = .single r →
      kb.single_modifier_release = true →
      kb.modifier_release = false →
      kb.keymap.defaultMap ls = some .LEFT_SHIFT →
      ls ≠ r →
      (kb.process [ls, r, ls]).modifiers
        = { kb.modifiers with left_shift := false }) ∧
    (∀ (kb : Keyboard) (relmap : Nat → Option Key) (ls rs rls : Nat),
      kb.keymap.modifier_release = .perKey relmap →
      kb.single_modifier_release = false →
      kb.keymap.defaultMap ls = some .LEFT_SHIFT →
      kb.keymap.defaultMap rs = some .RIGHT_SHIFT →
      relmap ls = none →
      relmap rs = none →
      relmap rls = some .LEFT_SHIFT →
      (kb.process [ls, rs, rls]).modifiers
          = { kb.modifiers with left_shift := false, right_shift := true } ∧
        (kb.process [rs, ls, rls]).modifiers
          = { kb.modifiers with left_shift := false, right_shift := true }) := by
  constructor
  · intro kb ls r hrel hsingle hpending hls hne
    obtain ⟨⟨dm, shm, altm, mr⟩, m, smr, rel, cl⟩ := kb
    simp only [] at hrel hsingle hpending hls
    subst hrel hsingle hpending
    have hbe : (ls == r) = false := by simpa using hne
    simp [Keyboard.process, Keyboard.get_key, Keyboard.apply_modifiers,
      key_modifier, KEY_MODIFIER_MAP, KeymapRelease.is_sentinel,
      KeymapRelease.contains, KeymapRelease.lookup, hls, hbe,
      KeyboardModifiers.is_caps_lock, KeyboardModifiers.or,
      KeyboardModifiers.andNot]
  · intro kb relmap ls rs rls hrel hsingle hls hrs hmls hmrs hmrls
    obtain ⟨⟨dm, shm, altm, mr⟩, m, smr, rel, cl⟩ := kb
    simp only [] at hrel hsingle hls hrs
    subst hrel hsingle
    constructor <;>
      simp [Keyboard.process, Keyboard.get_key, Keyboard.apply_modifiers,
        key_modifier, KEY_MODIFIER_MAP, KeymapRelease.is_sentinel,
        KeymapRelease.contains, KeymapRelease.lookup, hls, hrs, hmls, hmrs,
        hmrls, KeyboardModifiers.is_caps_lock, KeyboardModifiers.or,
        KeyboardModifiers.andNot]

/-- Witness for C6 with the two concrete test keymaps. -/
theorem C6_modifier_pairing_witness :
    ((Keyboard.mk' KEYMAP_SINGLE_TEST).process [77, 240, 77]).modifiers
        = { (Keyboard.mk' KEYMAP_SINGLE_TEST).modifiers with left_shift := false } ∧
      ((Keyboard.mk' KEYMAP_PERKEY_TEST).process [77, 78, 205]).modifiers
        = { (Keyboard.mk' KEYMAP_PERKEY_TEST).modifiers with
            left_shift := false, right_shift := true } :=
  ⟨C6_modifier_pairing.1 (Keyboard.mk' KEYMAP_SINGLE_TEST) 77 240 rfl rfl rfl
      (by decide) (by decide),
    (C6_modifier_pairing.2 (Keyboard.mk' KEYMAP_PERKEY_TEST)
      (fun s =>
        if s = 205 then some .LEFT_SHIFT
        else if s = 204 then some .CAPS_LOCK
        else none) 77 78 205 rfl rfl (by decide) (by decide) (by decide)
      (by decide) (by decide)).1⟩

/-- C7: every press of the caps-lock scan code toggles the CAPS_LOCK bit
(XOR), and a caps-lock release is swallowed — `get_key` returns no key and
leaves the modifiers untouched — under both the single-release and
per-key-release keymap styles. -/
theorem C7_caps_lock_toggle :
    (∀ (kb : Keyboard) (c r : Nat),
      kb.keymap.modifier_release = .single r →
      kb.single_modifier_release = true →
      kb.modifier_release = false →
      kb.keymap.defaultMap c = some .CAPS_LOCK →
      c ≠ r →
      (kb.get_key c).1.modifiers
          = { kb.modifiers with caps_lock := !kb.modifiers.caps_lock } ∧
        (kb.process [c, c]).modifiers = kb.modifiers) ∧
    (∀ (kb : Keyboard) (relmap : Nat → Option Key) (c : Nat),
      kb.keymap.modifier_release = .perKey relmap →
      kb.single_modifier_release = false →
      kb.keymap.defaultMap c = some .CAPS_LOCK →
      relmap c = none →
      (kb.get_key c).1.modifiers
          = { kb.modifiers with caps_lock := !kb.modifiers.caps_lock } ∧
        (kb.process [c, c]).modifiers = kb.modifiers) ∧
    (∀ (kb : Keyboard) (s r : Nat),
      kb.keymap.modifier_release = .single r →
      kb.single_modifier_release = true →
      kb.modifier_release = true →
      kb.keymap.defaultMap s = some .CAPS_LOCK →
      s ≠ r →
      (kb.get_key s).2.1 = none ∧ (kb.get_key s).1.modifiers = kb.modifiers) ∧
    (∀ (kb : Keyboard) (relmap : Nat → Option Key) (rc : Nat),
      kb.keymap.modifier_release = .perKey relmap →
      kb.single_modifier_release = false →
      relmap rc = some .CAPS_LOCK →
      (kb.get_key rc).2.1 = none ∧ (kb.get_key rc).1.modifiers = kb.modifiers) := by
  refine ⟨?_, ?_, ?_, ?_⟩
  · intro kb c r hrel hsingle hpending hc hne
    obtain ⟨⟨dm, shm, altm, mr⟩, m, smr, rel, cl⟩ := kb
    simp only [] at hrel hsingle hpending hc
    subst hrel hsingle hpending
    have hbe : (c == r) = false := by simpa using hne
    constructor <;>
      simp [Keyboard.process, Keyboard.get_key, Keyboard.apply_modifiers,
        key_modifier, KEY_MODIFIER_MAP, KeymapRelease.is_sentinel,
        KeymapRelease.contains, KeymapRelease.lookup, hc, hbe,
        KeyboardModifiers.is_caps_lock, KeyboardModifiers.xor]
  · intro kb relmap c hrel hsingle hc hmc
    obtain ⟨⟨dm, shm, altm, mr⟩, m, smr, rel, cl⟩ := kb
    simp only [] at hrel hsingle hc
    subst hrel hsingle
    constructor <;>
      simp [Keyboard.process, Keyboard.get_key, Keyboard.apply_modifiers,
        key_modifier, KEY_MODIFIER_MAP, KeymapRelease.is_sentinel,
        KeymapRelease.contains, KeymapRelease.lookup, hc, hmc,
        KeyboardModifiers.is_caps_lock, KeyboardModifiers.xor]
  · intro kb s r hrel hsingle hpending hs hne
    obtain ⟨⟨dm, shm, altm, mr⟩, m, smr, rel, cl⟩ := kb
    simp only [] at hrel hsingle hpending hs
    subst hrel hsingle hpending
    have hbe : (s == r) = false := by simpa using hne
    constructor <;>
      simp [Keyboard.get_key, Keyboard.apply_modifiers,
        key_modifier, KEY_MODIFIER_MAP, KeymapRelease.is_sentinel,
        KeymapRelease.contains, KeymapRelease.lookup, hs, hbe,
        KeyboardModifiers.is_caps_lock]
  · intro kb relmap rc hrel hsingle hmrc
    obtain ⟨⟨dm, shm, altm, mr⟩, m, smr, rel, cl⟩ := kb
    simp only [] at hrel hsingle
    subst hrel hsingle
    constructor <;>
      simp [Keyboard.get_key, Keyboard.apply_modifiers,
        key_modifier, KEY_MODIFIER_MAP, KeymapRelease.is_sentinel,
        KeymapRelease.contains, KeymapRelease.lookup, hmrc,
        KeyboardModifiers.is_caps_lock]

/-- Witness for C7: caps lock toggles on and back off on the single-release
keymap, and the per-key caps-lock release scan code 204 yields no key. -/
theorem C7_caps_lock_toggle_witness :
    ((Keyboard.mk' KEYMAP_SINGLE_TEST).process [76, 76]).modifiers
        = (Keyboard.mk' KEYMAP_SINGLE_TEST).modifiers ∧
      ((Keyboard.mk' KEYMAP_PERKEY_TEST).get_key 204).2.1 = none :=
  ⟨(C7_caps_lock_toggle.1 (Keyboard.mk' KEYMAP_SINGLE_TEST) 76 240 rfl rfl rfl
      (by decide) (by decide)).2,
    (C7_caps_lock_toggle.2.2.2 (Keyboard.mk' KEYMAP_PERKEY_TEST)
      (fun s =>
        if s = 205 then some .LEFT_SHIFT
        else if s = 204 then some .CAPS_LOCK
        else none) 204 rfl rfl (by decide)).1⟩

/-- Evaluation of `Display.write` at an explicit in-range address without
address restoration. -/
theorem Display.write_some_addr_eval (d : Display) (regen_data : JumboData)
    (eab_data : Option JumboData) (a read_value : Nat)
    (hv : eab_write_validate d.has_eab regen_data eab_data = none)
    (ha : ¬ a > d.last_address) :
    d.write regen_data eab_data (some a) none none none false read_value
      = .ok ({ d with
            address_counter :=
              if a + regen_data.length > d.last_address then none
              else some (a + regen_data.length) },
          ⟨some a,
            match eab_data with
            | some _ => .eabWriteAlternate
            | none => .writeData,
            match eab_data with
            | some e => interleave_data regen_data e
            | none => regen_data⟩) := by
  simp only [Display.last_address, Display.buffer_length, gt_iff_lt] at ha
  cases eab_data <;>
    simp [Display.write, hv, Display.calculate_address, ha,
      Display.load_address_counter, Display.calculate_address_after_write,
      Display.last_address, Display.buffer_length]

/-- Evaluation of `Display.write` for a relative write (no explicit
address) without address restoration. -/
theorem Display.write_no_addr_eval (d : Display) (regen_data : JumboData)
    (eab_data : Option JumboData) (read_value : Nat)
    (hv : eab_write_validate d.has_eab regen_data eab_data = none) :
    d.write regen_data eab_data none none none none false read_value
      = .ok ({ d with
            address_counter :=
              d.calculate_address_after_write d.address_counter
                regen_data.length },
          ⟨d.address_counter,
            match eab_data with
            | some _ => .eabWriteAlternate
            | none => .writeData,
            match eab_data with
            | some e => interleave_data regen_data e
            | none => regen_data⟩) := by
  cases eab_data <;>
    simp [Display.write, hv, Display.calculate_address,
      Display.load_address_counter]

/-- C9 counterexample: a write with `restore_original_address=True` whose
span `[0, 1]` reaches the last addressable byte (here `last_address = 1`:
`rows = 1`, `columns = 1`) does not leave the shadow address counter at
`None`: the counter is re-loaded with the saved original address 0 after
the write. -/
theorem C9_counterexample :
    (⟨⟨1, 1⟩, none, some 0⟩ : Display).write
        (.bytes [5, 6]) none (some 0) none none none true 0
      = .ok (⟨⟨1, 1⟩, none, some 0⟩, ⟨some 0, .writeData, .bytes [5, 6]⟩) ∧
      (⟨⟨1, 1⟩, none, some 0⟩ : Display).last_address
        < 0 + (JumboData.bytes [5, 6]).length ∧
      (some 0 : Option Nat) ≠ none :=
  ⟨rfl, by decide, by decide⟩

/-- C9 (amended): for every `Display.write` without
`restore_original_address`, if the written span (starting at the loaded
address, or at the known shadow address for a relative write) reaches the
last addressable byte `(rows + 1) * columns - 1`, the shadow address
counter is invalidated to `None`; otherwise the shadow advances by exactly
the number of bytes written.  With `restore_original_address` the shadow
is instead re-loaded with the saved original address (see the
counterexample). -/
theorem C9_address_counter_after_write (d : Display) (regen_data : JumboData)
    (eab_data : Option JumboData) (read_value : Nat) :
    (∀ a d' cmd,
      d.write regen_data eab_data (some a) none none none false read_value
          = .ok (d', cmd) →
      d'.address_counter =
        if d.last_address < a + regen_data.length then none
        else some (a + regen_data.length)) ∧
    (∀ s d' cmd, d.address_counter = some s →
      d.write regen_data eab_data none none none none false read_value
          = .ok (d', cmd) →
      d'.address_counter =
        if d.last_address < s + regen_data.length then none
        else some (s + regen_data.length)) := by
  constructor
  · intro a d' cmd h
    cases hv : eab_write_validate d.has_eab regen_data eab_data with
    | some e => rw [Display.write, hv] at h; cases h
    | none =>
      by_cases ha : a > d.last_address
      · rw [Display.write, hv] at h
        cases eab_data <;>
          simp [Display.calculate_address, ha] at h
      · rw [Display.write_some_addr_eval d regen_data eab_data a read_value
          hv ha] at h
        rw [Except.ok.injEq, Prod.mk.injEq] at h
        rw [← h.1]
  · intro s d' cmd hs h
    rcases hv : eab_write_validate d.has_eab regen_data eab_data with _ | e
    · rw [Display.write_no_addr_eval d regen_data eab_data read_value hv] at h
      rw [Except.ok.injEq, Prod.mk.injEq] at h
      rw [← h.1]
      simp [Display.calculate_address_after_write, hs]
    · rw [Display.write, hv] at h; cases h

/-- Witness for C9 (amended): on a 1×1 display, a 1-byte write at the last
address (1) invalidates the shadow address counter to `None`. -/
theorem C9_address_counter_witness :
    (⟨⟨1, 1⟩, none, none⟩ : Display).address_counter =
      if (⟨⟨1, 1⟩, none, none⟩ : Display).last_address
          < 1 + (JumboData.bytes [9]).length then none
      else some (1 + (JumboData.bytes [9]).length) :=
  (C9_address_counter_after_write ⟨⟨1, 1⟩, none, none⟩
      (.bytes [9]) none 0).1 1 ⟨⟨1, 1⟩, none, none⟩
    ⟨some 1, .writeData, .bytes [9]⟩ rfl

theorem eraseRange_eq_empty (s : Finset Nat) (addr len : Nat)
    (h : ∀ a ∈ s, addr ≤ a ∧ a < addr + len) : eraseRange s addr len = ∅ := by
  induction len generalizing s addr with
  | zero =>
    rw [eraseRange, Finset.eq_empty_iff_forall_not_mem]
    intro a ha
    have := h a ha
    omega
  | succ n ih =>
    rw [eraseRange]
    refine ih _ _ (fun a ha => ?_)
    rw [Finset.mem_erase] at ha
    have := h a ha.2
    have := ha.1
    omega

theorem set_of_getElem? (l : List α) (i : Nat) (v : α) (h : l[i]? = some v) :
    l.set i v = l := by
  induction l generalizing i with
  | nil => simp at h
  | cons x xs ih =>
    cases i with
    | zero => simp_all
    | succ n => simp_all [List.set]

theorem writeAt_length (l : List Nat) (mem : List Nat) (addr : Nat) :
    (writeAt mem addr l).length = mem.length := by
  induction l generalizing mem addr with
  | nil => rfl
  | cons x xs ih => rw [writeAt, ih, List.length_set]

theorem writeAt_getD_of_lt (l mem : List Nat) (addr i : Nat) (h : i < addr) :
    (writeAt mem addr l).getD i 0 = mem.getD i 0 := by
  induction l generalizing mem addr with
  | nil => rfl
  | cons x xs ih =>
    rw [writeAt, ih _ _ (by omega)]
    simp only [List.getD_eq_getElem?_getD]
    rw [List.getElem?_set_ne (by omega)]

theorem writeAt_getD_of_ge (l mem : List Nat) (addr i : Nat)
    (h : addr + l.length ≤ i) :
    (writeAt mem addr l).getD i 0 = mem.getD i 0 := by
  induction l generalizing mem addr with
  | nil => rfl
  | cons x xs ih =>
    rw [writeAt, ih _ _ (by simp at h ⊢; omega)]
    simp only [List.getD_eq_getElem?_getD]
    rw [List.getElem?_set_ne (by simp at h; omega)]

theorem writeAt_getD_of_mem (l mem : List Nat) (addr i : Nat)
    (h1 : addr ≤ i) (h2 : i < addr + l.length) (h3 : i < mem.length) :
    (writeAt mem addr l).getD i 0 = l.getD (i - addr) 0 := by
  induction l generalizing mem addr with
  | nil => simp at h2; omega
  | cons x xs ih =>
    rw [writeAt]
    rcases Nat.eq_or_lt_of_le h1 with heq | hlt
    · subst heq
      rw [writeAt_getD_of_lt _ _ _ _ (by omega)]
      simp only [List.getD_eq_getElem?_getD, Nat.sub_self]
      rw [List.getElem?_set_self h3]
      simp
    · rw [ih _ _ (by omega) (by simp at h2 ⊢; omega) (by simpa using h3)]
      have : i - addr = (i - (addr + 1)) + 1 := by omega
      rw [this, List.getD_cons_succ]

theorem writeAt_take_eq (t l : List Nat) (s : Nat)
    (h : t = (l.drop s).take t.length) : writeAt l s t = l := by
  induction t generalizing l s with
  | nil => rfl
  | cons x xs ih =>
    cases hd : l.drop s with
    | nil => rw [hd] at h; simp at h
    | cons y r =>
      rw [hd] at h
      simp only [List.length_cons, List.take_succ_cons, List.cons.injEq] at h
      obtain ⟨hx, hxs⟩ := h
      subst hx
      have hset : l.set s x = l := by
        refine set_of_getElem? l s x ?_
        have h0 : (l.drop s)[0]? = some x := by rw [hd]; simp
        rwa [List.getElem?_drop, Nat.add_zero] at h0
      rw [writeAt, hset]
      refine ih l (s + 1) ?_
      have hr : l.drop (s + 1) = r := by
        have : l.drop (s + 1) = (l.drop s).drop 1 := by
          rw [List.drop_drop, Nat.add_comm]
        rw [this, hd, List.drop_one, List.tail_cons]
      rw [hr]
      exact hxs

theorem writeAt_buffer_slice (l : List Nat) (s e : Nat) :
    writeAt l s (buffer_slice l s e) = l := by
  refine writeAt_take_eq _ _ _ ?_
  rw [buffer_slice]
  rw [List.length_take]
  rcases Nat.le_total (e + 1 - s) (l.drop s).length with hle | hle
  · rw [Nat.min_eq_left hle]
  · rw [Nat.min_eq_right hle, List.take_of_length_le hle,
      List.take_of_length_le (Nat.le_refl _)]

theorem buffer_slice_length (l : List Nat) (s e : Nat) (hs : s ≤ e)
    (he : e < l.length) : (buffer_slice l s e).length = e + 1 - s := by
  rw [buffer_slice, List.length_take, List.length_drop]
  omega

theorem buffer_slice_getD (l : List Nat) (s e i : Nat) (h1 : s ≤ i)
    (h2 : i ≤ e) :
    (buffer_slice l s e).getD (i - s) 0 = l.getD i 0 := by
  rw [buffer_slice]
  simp only [List.getD_eq_getElem?_getD]
  rw [List.getElem?_take, if_pos (by omega), List.getElem?_drop]
  congr 2
  omega

theorem zipLongest_nil_right (xs : List Nat) :
    zipLongest xs [] = xs.map fun x => (some x, none) := by
  induction xs with
  | nil => simp [zipLongest]
  | cons x l ih => rw [zipLongest, ih]; rfl

theorem zipLongest_eq_length (xs ys : List Nat) (h : xs.length = ys.length) :
    zipLongest xs ys = (xs.zip ys).map fun p => (some p.1, some p.2) := by
  induction xs generalizing ys with
  | nil =>
    cases ys with
    | nil => simp [zipLongest]
    | cons y l => simp at h
  | cons x l ih =>
    cases ys with
    | nil => simp at h
    | cons y m =>
      rw [zipLongest, ih m (by simpa using h)]
      rfl

theorem evens_interleave (a b : List Nat) (h : a.length = b.length) :
    evens (interleave a b) = a := by
  induction a generalizing b with
  | nil => simp [interleave, evens]
  | cons x xs ih =>
    cases b with
    | nil => simp at h
    | cons y ys =>
      have : interleave (x :: xs) (y :: ys) = x :: y :: interleave xs ys := by
        simp [interleave]
      rw [this, evens, ih ys (by simpa using h)]

theorem odds_interleave (a b : List Nat) (h : a.length = b.length) :
    odds (interleave a b) = b := by
  induction a generalizing b with
  | nil =>
    cases b with
    | nil => simp [interleave, odds]
    | cons y ys => simp at h
  | cons x xs ih =>
    cases b with
    | nil => simp at h
    | cons y ys =>
      have : interleave (x :: xs) (y :: ys) = x :: y :: interleave xs ys := by
        simp [interleave]
      rw [this, odds, ih ys (by simpa using h)]

theorem commitPairs_regen_only (l : List Nat) (b : BufferedDisplay)
    (addr : Nat) :
    commitPairs b addr (l.map fun r => (some r, none))
      = .ok { b with
          regen_buffer := writeAt b.regen_buffer addr l
          dirty := eraseRange b.dirty addr l.length } := by
  induction l generalizing b addr with
  | nil => simp [commitPairs, writeAt, eraseRange]
  | cons x xs ih =>
    simp only [List.map_cons, commitPairs]
    rw [ih]
    simp [writeAt, eraseRange]

theorem commitPairs_regen_eab (l : List (Nat × Nat)) (b : BufferedDisplay)
    (buf : List Nat) (hb : b.eab_buffer = some buf) (addr : Nat) :
    commitPairs b addr (l.map fun p => (some p.1, some p.2))
      = .ok { b with
          regen_buffer := writeAt b.regen_buffer addr (l.map Prod.fst)
          eab_buffer := some (writeAt buf addr (l.map Prod.snd))
          dirty := eraseRange b.dirty addr l.length } := by
  induction l generalizing b buf addr with
  | nil =>
    simp only [List.map_nil, commitPairs, writeAt, eraseRange]
    rw [← hb]
  | cons p xs ih =>
    simp only [List.map_cons, commitPairs, hb]
    rw [ih _ (buf.set addr p.2) rfl]
    simp [writeAt, eraseRange]

/-- Evaluation of `BufferedDisplay.write` for a plain-bytes regen write
without EAB data at an explicit in-range address. -/
theorem BufferedDisplay.write_bytes_noeab_eval (b : BufferedDisplay)
    (rl : List Nat) (a read_value : Nat) (ha : ¬ a > b.last_address) :
    b.write (.bytes rl) none (some a) none none none false read_value
      = .ok ({ b with
            toDisplay := ⟨b.dimensions, b.eab_address,
              if a + rl.length > b.last_address then none
              else some (a + rl.length)⟩
            regen_buffer := writeAt b.regen_buffer a rl
            dirty := eraseRange b.dirty a rl.length },
          ⟨some a, .writeData, .bytes rl⟩) := by
  have hca : b.calculate_address (some a) none none none = .ok (some a) := by
    simp [Display.calculate_address, ha]
  simp only [BufferedDisplay.write, hca,
    Display.write_some_addr_eval b.toDisplay (.bytes rl) none a read_value
      rfl ha,
    BufferedDisplay.commit, JumboData.expand, JumboData.length,
    zipLongest_nil_right, commitPairs_regen_only]

/-- Evaluation of `BufferedDisplay.write` for a plain-bytes regen/EAB write
at an explicit in-range address. -/
theorem BufferedDisplay.write_bytes_eab_eval (b : BufferedDisplay)
    (rl el buf : List Nat) (a read_value : Nat)
    (hb : b.eab_buffer = some buf) (hhe : b.has_eab = true)
    (hlen : rl.length = el.length) (ha : ¬ a > b.last_address) :
    b.write (.bytes rl) (some (.bytes el)) (some a) none none none false
        read_value
      = .ok ({ b with
            toDisplay := ⟨b.dimensions, b.eab_address,
              if a + rl.length > b.last_address then none
              else some (a + rl.length)⟩
            regen_buffer := writeAt b.regen_buffer a rl
            eab_buffer := some (writeAt buf a el)
            dirty := eraseRange b.dirty a rl.length },
          ⟨some a, .eabWriteAlternate, .bytes (interleave rl el)⟩) := by
  have hca : b.calculate_address (some a) none none none = .ok (some a) := by
    simp [Display.calculate_address, ha]
  have hv : eab_write_validate b.has_eab (.bytes rl) (some (.bytes el))
      = none := by
    rw [eab_write_validate, hhe]
    simp [hlen]
  have hcommit := commitPairs_regen_eab (rl.zip el)
    ({ b with toDisplay := ⟨b.dimensions, b.eab_address,
        if a + rl.length > b.last_address then none
        else some (a + rl.length)⟩ }) buf hb a
  simp only [BufferedDisplay.write, hca,
    Display.write_some_addr_eval b.toDisplay (.bytes rl)
      (some (.bytes el)) a read_value hv ha,
    BufferedDisplay.commit, JumboData.expand, JumboData.length,
    zipLongest_eq_length rl el hlen]
  rw [hcommit]
  rw [List.map_fst_zip rl el (by omega), List.map_snd_zip rl el (by omega),
    List.length_zip, Nat.min_eq_left (by omega)]
  rfl

/-- Full evaluation of `flush` on a well-formed state with a non-empty
dirty set: one write command, the buffers unchanged, the dirty set
emptied, and the shadow address counter advanced past the span. -/
theorem flush_spec (b : BufferedDisplay) (hwf : b.wf) (h : b.dirty.Nonempty) :
    b.flush = ({ b with
        toDisplay := ⟨b.dimensions, b.eab_address,
          if b.dirty.max' h + 1 > b.last_address then none
          else some (b.dirty.max' h + 1)⟩
        dirty := ∅ },
      [flush_command b h], true) := by
  obtain ⟨hcols, hreglen, hsome, helen, hdirty⟩ := hwf
  have hlo_mem : b.dirty.min' h ∈ b.dirty := Finset.min'_mem _ h
  have hhi_mem : b.dirty.max' h ∈ b.dirty := Finset.max'_mem _ h
  have hlohi : b.dirty.min' h ≤ b.dirty.max' h := Finset.min'_le _ _ hhi_mem
  have hhilast : b.dirty.max' h ≤ b.last_address := hdirty _ hhi_mem
  have hbl_pos : 0 < b.buffer_length :=
    Nat.mul_pos (Nat.succ_pos _) hcols
  have hlast_lt : b.last_address < b.buffer_length := by
    rw [Display.last_address]; omega
  have hhi_lt_reg : b.dirty.max' h < b.regen_buffer.length := by
    rw [hreglen]; omega
  have hlo_last : ¬ b.dirty.min' h > b.last_address := by
    have := hdirty _ hlo_mem; omega
  have hslice_len : (buffer_slice b.regen_buffer (b.dirty.min' h)
      (b.dirty.max' h)).length = b.dirty.max' h + 1 - b.dirty.min' h :=
    buffer_slice_length _ _ _ hlohi hhi_lt_reg
  have harith : b.dirty.min' h + (b.dirty.max' h + 1 - b.dirty.min' h)
      = b.dirty.max' h + 1 := by omega
  have hdempty : eraseRange b.dirty (b.dirty.min' h)
      (b.dirty.max' h + 1 - b.dirty.min' h) = ∅ := by
    refine eraseRange_eq_empty _ _ _ (fun a ha => ?_)
    have h1 := Finset.min'_le _ _ ha
    have h2 := Finset.le_max' _ _ ha
    omega
  rcases heb : b.eab_buffer with _ | buf
  · simp only [BufferedDisplay.flush, BufferedDisplay.get_dirty_ranges,
      dif_pos h, List.isEmpty_cons, Bool.false_eq_true, if_false,
      List.foldl_cons, List.foldl_nil, BufferedDisplay.write_range, heb,
      BufferedDisplay.write_bytes_noeab_eval b _ _ 0 hlo_last,
      List.nil_append, flush_command]
    rw [writeAt_buffer_slice, hslice_len, harith, hdempty]
  · have hhe : b.has_eab = true := by rw [← hsome, heb]; rfl
    have hbuf_len : buf.length = b.buffer_length := by
      rw [heb] at helen; simpa using helen
    have hhi_lt_buf : b.dirty.max' h < buf.length := by rw [hbuf_len]; omega
    have heslice_len : (buffer_slice buf (b.dirty.min' h)
        (b.dirty.max' h)).length = b.dirty.max' h + 1 - b.dirty.min' h :=
      buffer_slice_length _ _ _ hlohi hhi_lt_buf
    have hlen : (buffer_slice b.regen_buffer (b.dirty.min' h)
          (b.dirty.max' h)).length
        = (buffer_slice buf (b.dirty.min' h) (b.dirty.max' h)).length := by
      rw [hslice_len, heslice_len]
    simp only [BufferedDisplay.flush, BufferedDisplay.get_dirty_ranges,
      dif_pos h, List.isEmpty_cons, Bool.false_eq_true, if_false,
      List.foldl_cons, List.foldl_nil, BufferedDisplay.write_range, heb,
      BufferedDisplay.write_bytes_eab_eval b _ _ buf _ 0 heb hhe hlen
        hlo_last,
      List.nil_append, flush_command]
    rw [writeAt_buffer_slice, writeAt_buffer_slice, hslice_len, harith,
      hdempty]

/-- C1: on a well-formed `BufferedDisplay` whose dirty set is non-empty,
`flush()` issues exactly one write command, starting at the lowest dirty
index and covering the contiguous span up to the highest dirty index, with
the buffer's bytes inside the span (dirty or not) included verbatim; it
clears every dirty index and returns `True`.  With an empty dirty set it
writes nothing and returns `False`. -/
theorem C1_flush_coalescing (b : BufferedDisplay) (hwf : b.wf) :
    (∀ h : b.dirty.Nonempty,
      ∃ b' cmd, b.flush = (b', [cmd], true) ∧
        cmd.start = some (b.dirty.min' h) ∧
        cmd.regen_plane
          = buffer_slice b.regen_buffer (b.dirty.min' h) (b.dirty.max' h) ∧
        cmd.regen_plane.length = b.dirty.max' h + 1 - b.dirty.min' h ∧
        (∀ i, b.dirty.min' h ≤ i → i ≤ b.dirty.max' h →
          cmd.regen_plane.getD (i - b.dirty.min' h) 0
            = b.regen_buffer.getD i 0) ∧
        b'.dirty = ∅ ∧
        b'.regen_buffer = b.regen_buffer ∧
        b'.eab_buffer = b.eab_buffer) ∧
      (b.dirty = ∅ → b.flush = (b, [], false)) := by
  constructor
  · intro h
    obtain ⟨hcols, hreglen, hsome, helen, hdirty⟩ := hwf
    have hhi_mem : b.dirty.max' h ∈ b.dirty := Finset.max'_mem _ h
    have hlohi : b.dirty.min' h ≤ b.dirty.max' h := Finset.min'_le _ _ hhi_mem
    have hhilast : b.dirty.max' h ≤ b.last_address := hdirty _ hhi_mem
    have hbl_pos : 0 < b.buffer_length := Nat.mul_pos (Nat.succ_pos _) hcols
    have hlast_lt : b.last_address < b.buffer_length := by
      rw [Display.last_address]; omega
    have hhi_lt_reg : b.dirty.max' h < b.regen_buffer.length := by
      rw [hreglen]; omega
    have hslice_len : (buffer_slice b.regen_buffer (b.dirty.min' h)
        (b.dirty.max' h)).length = b.dirty.max' h + 1 - b.dirty.min' h :=
      buffer_slice_length _ _ _ hlohi hhi_lt_reg
    refine ⟨_, _, flush_spec b ⟨hcols, hreglen, hsome, helen, hdirty⟩ h,
      ?_, ?_, ?_, ?_, rfl, rfl, rfl⟩
    · rcases heb : b.eab_buffer with _ | buf <;>
        simp [flush_command, heb, WriteCommand.regen_plane]
    · rcases heb : b.eab_buffer with _ | buf
      · simp [flush_command, heb, WriteCommand.regen_plane, JumboData.expand]
      · have hhe : b.has_eab = true := by rw [← hsome, heb]; rfl
        have hbuf_len : buf.length = b.buffer_length := by
          rw [heb] at helen; simpa using helen
        have hhi_lt_buf : b.dirty.max' h < buf.length := by
          rw [hbuf_len]; omega
        simp only [flush_command, heb, WriteCommand.regen_plane,
          JumboData.expand]
        exact evens_interleave _ _ (by
          rw [hslice_len, buffer_slice_length _ _ _ hlohi hhi_lt_buf])
    · rcases heb : b.eab_buffer with _ | buf
      · simp only [flush_command, heb, WriteCommand.regen_plane,
          JumboData.expand]
        exact hslice_len
      · have hbuf_len : buf.length = b.buffer_length := by
          rw [heb] at helen; simpa using helen
        have hhi_lt_buf : b.dirty.max' h < buf.length := by
          rw [hbuf_len]; omega
        simp only [flush_command, heb, WriteCommand.regen_plane,
          JumboData.expand]
        rw [evens_interleave _ _ (by
          rw [hslice_len, buffer_slice_length _ _ _ hlohi hhi_lt_buf])]
        exact hslice_len
    · intro i h1 h2
      have hplane : (flush_command b h).regen_plane
          = buffer_slice b.regen_buffer (b.dirty.min' h) (b.dirty.max' h) := by
        rcases heb : b.eab_buffer with _ | buf
        · simp [flush_command, heb, WriteCommand.regen_plane,
            JumboData.expand]
        · have hbuf_len : buf.length = b.buffer_length := by
            rw [heb] at helen; simpa using helen
          have hhi_lt_buf : b.dirty.max' h < buf.length := by
            rw [hbuf_len]; omega
          simp only [flush_command, heb, WriteCommand.regen_plane,
            JumboData.expand]
          exact evens_interleave _ _ (by
            rw [hslice_len, buffer_slice_length _ _ _ hlohi hhi_lt_buf])
      rw [hplane]
      exact buffer_slice_getD _ _ _ _ h1 h2
  · intro hempty
    have hne : ¬ b.dirty.Nonempty := by
      rw [hempty]; exact Finset.not_nonempty_empty
    simp [BufferedDisplay.flush, BufferedDisplay.get_dirty_ranges,
      dif_neg hne]

/-- Witness for C1: a 1×3 display (6 buffer bytes) with dirty set `{1, 3}`
flushes exactly one command starting at index 1 and ends with an empty
dirty set. -/
theorem C1_flush_coalescing_witness :
    ∃ b' cmd,
      BufferedDisplay.flush
          ⟨⟨⟨1, 3⟩, none, none⟩, [1, 2, 3, 4, 5, 6], none, {1, 3}⟩
        = (b', [cmd], true) ∧
      cmd.start = some ((({1, 3} : Finset Nat)).min' (by decide)) ∧
      b'.dirty = ∅ := by
  obtain ⟨b', cmd, h1, h2, _, _, _, h6, _, _⟩ :=
    (C1_flush_coalescing
      ⟨⟨⟨1, 3⟩, none, none⟩, [1, 2, 3, 4, 5, 6], none, {1, 3}⟩
      (by unfold BufferedDisplay.wf; decide)).1 (by decide)
  exact ⟨b', cmd, h1, h2, h6⟩

/-- C2 counterexample: writing byte 1 then byte 0 at address 0 (starting
from a flushed all-zero state) leaves the buffer identical to the device
state at every address, yet the dirty set is `{0}`, not the empty set of
differing addresses — the dirty set is a strict superset, not "exactly"
the differing addresses. -/
theorem C2_counterexample :
    BufferedDisplay.buffered_write_byte
        ⟨⟨⟨1, 1⟩, none, none⟩, [0, 0], none, ∅⟩ 1 none (some 0) none none none
      = .ok (⟨⟨⟨1, 1⟩, none, none⟩, [1, 0], none, {0}⟩, true) ∧
      BufferedDisplay.buffered_write_byte
          ⟨⟨⟨1, 1⟩, none, none⟩, [1, 0], none, {0}⟩ 0 none (some 0) none none
          none
        = .ok (⟨⟨⟨1, 1⟩, none, none⟩, [0, 0], none, {0}⟩, true) ∧
      (∀ a ∈ Finset.range 2,
        differs_at ⟨⟨⟨1, 1⟩, none, none⟩, [0, 0], none, {0}⟩ ⟨[0, 0], [0]⟩ a
          = false) ∧
      (⟨⟨⟨1, 1⟩, none, none⟩, [0, 0], none, {0}⟩
          : BufferedDisplay).dirty ≠ ∅ :=
  ⟨rfl, rfl, by decide, by decide⟩

theorem getD_set_self (l : List Nat) (i v : Nat) (h : i < l.length) :
    (l.set i v).getD i 0 = v := by
  simp [List.getD_eq_getElem?_getD, List.getElem?_set_self h]

theorem getD_set_ne (l : List Nat) (i j v : Nat) (h : i ≠ j) :
    (l.set i v).getD j 0 = l.getD j 0 := by
  simp [List.getD_eq_getElem?_getD, List.getElem?_set_ne h]

theorem set_ne_of_getD_ne (l : List Nat) (i v : Nat) (hi : i < l.length)
    (hne : l.getD i 0 ≠ v) : l.set i v ≠ l := by
  intro he
  apply hne
  have := congrArg (fun t => List.getD t i 0) he
  simp only at this
  rw [getD_set_self l i v hi] at this
  exact this.symm

/-- Specification of a successful `buffered_write_byte` at an explicit
address: well-formedness and the dirty-superset invariant are preserved,
and the returned flag is `True` exactly when the shadow buffers changed. -/
theorem buffered_write_byte_spec (b : BufferedDisplay) (dev : DeviceMemory)
    (rb : Nat) (eb : Option Nat) (a : Nat) (b' : BufferedDisplay)
    (chg : Bool) (hwf : b.wf) (heq : eb.isSome = b.has_eab)
    (hcall : b.buffered_write_byte rb eb (some a) none none none
      = .ok (b', chg)) :
    b'.wf ∧ (dirty_inv b dev → dirty_inv b' dev) ∧
      (chg = false → b' = b) ∧
      (chg = true ↔ ¬(b'.regen_buffer = b.regen_buffer ∧
        b'.eab_buffer = b.eab_buffer)) := by
  obtain ⟨hcols, hreglen, hsome, helen, hdirty⟩ := hwf
  rw [BufferedDisplay.buffered_write_byte, heq] at hcall
  simp only [Bool.and_not_self, Bool.false_eq_true, if_false] at hcall
  by_cases ha : a > b.last_address
  · simp [Display.calculate_address, ha] at hcall
  · simp only [show b.calculate_address (some a) none none none
        = .ok (some a) by simp [Display.calculate_address, ha]] at hcall
    have ha_lt : a < b.buffer_length := by
      rw [Display.last_address] at ha
      have : 0 < b.buffer_length := Nat.mul_pos (Nat.succ_pos _) hcols
      omega
    have ha_reg : a < b.regen_buffer.length := by rw [hreglen]; exact ha_lt
    by_cases hu : write_byte_unchanged b rb eb a = true
    · rw [if_pos hu] at hcall
      rw [Except.ok.injEq, Prod.mk.injEq] at hcall
      obtain ⟨hb', hchg⟩ := hcall
      subst hb' hchg
      exact ⟨⟨hcols, hreglen, hsome, helen, hdirty⟩, fun hi => hi,
        fun _ => rfl, by simp⟩
    · rw [if_neg hu] at hcall
      rw [write_byte_unchanged, Bool.and_eq_true] at hu
      have hu2 := not_and_or.mp hu
      by_cases hhe : b.has_eab = true
      · have hbufs : b.eab_buffer.isSome = true := by rw [hsome, hhe]
        obtain ⟨buf, hbuf⟩ : ∃ buf, b.eab_buffer = some buf := by
          cases hb : b.eab_buffer
          · rw [hb] at hbufs; simp at hbufs
          · exact ⟨_, rfl⟩
        have hebs : eb.isSome = true := by rw [heq, hhe]
        obtain ⟨v, hv⟩ : ∃ v, eb = some v := by
          cases he : eb
          · rw [he] at hebs; simp at hebs
          · exact ⟨_, rfl⟩
        subst hv
        simp only [Display.has_eab] at hhe
        simp only [hbuf, Display.has_eab, hhe, if_true, if_pos] at hcall
        rw [Except.ok.injEq, Prod.mk.injEq] at hcall
        obtain ⟨hb', hchg⟩ := hcall
        subst hchg
        have hbuf_len : buf.length = b.buffer_length := by
          rw [hbuf] at helen; simpa using helen
        have ha_buf : a < buf.length := by rw [hbuf_len]; exact ha_lt
        refine ⟨?_, ?_, by simp, ?_⟩
        · rw [← hb']
          refine ⟨hcols, ?_, ?_, ?_, ?_⟩
          · simpa [List.length_set] using hreglen
          · simp [Display.has_eab, hhe]
          · simpa [List.length_set] using hbuf_len
          · intro x hx
            rcases Finset.mem_insert.mp hx with hxa | hxd
            · subst hxa
              simp only [Display.last_address, Display.buffer_length] at ha ⊢
              omega
            · exact hdirty x hxd
        · intro hinv x hx hdiff
          rw [← hb']
          by_cases hxa : x = a
          · subst hxa; exact Finset.mem_insert_self _ _
          · refine Finset.mem_insert_of_mem (hinv x ?_ ?_)
            · rw [← hb'] at hx; simpa using hx
            · rw [← hb'] at hdiff
              rw [differs_at] at hdiff ⊢
              rw [hbuf]
              simp only [hbuf] at hdiff
              rwa [getD_set_ne _ _ _ _ (fun hh => hxa hh.symm),
                getD_set_ne _ _ _ _ (fun hh => hxa hh.symm)] at hdiff
        · constructor
          · intro _ hcon
            obtain ⟨hreq, heeq⟩ := hcon
            rw [← hb'] at hreq heeq
            rcases hu2 with hur | hue
            · exact set_ne_of_getD_ne _ _ _ ha_reg
                (fun hh => hur (by rw [hh]; simp)) hreq
            · rw [hbuf] at hue
              simp only [Display.has_eab, hhe, Bool.not_true,
                Bool.false_or] at hue
              have hvne : v ≠ buf.getD a 0 := by
                intro hh
                exact hue (by simp [hh])
              rw [hbuf, Option.some.injEq] at heeq
              exact set_ne_of_getD_ne _ _ _ ha_buf
                (fun hh => hvne hh.symm) heeq
          · intro _; rfl
      · have hne : b.has_eab = false := by
          cases hb : b.has_eab
          · rfl
          · exact absurd hb hhe
        simp only [Display.has_eab] at hne
        simp only [Display.has_eab, hne, Bool.false_eq_true, if_false] at hcall
        rw [Except.ok.injEq, Prod.mk.injEq] at hcall
        obtain ⟨hb', hchg⟩ := hcall
        subst hchg
        have hbn : b.eab_buffer = none := by
          cases hb : b.eab_buffer
          · rfl
          · rw [hb] at hsome
            simp [Display.has_eab, hne] at hsome
        refine ⟨?_, ?_, by simp, ?_⟩
        · rw [← hb']
          refine ⟨hcols, ?_, ?_, ?_, ?_⟩
          · simpa [List.length_set] using hreglen
          · exact hsome
          · simpa using helen
          · intro x hx
            rcases Finset.mem_insert.mp hx with hxa | hxd
            · subst hxa
              simp only [Display.last_address, Display.buffer_length] at ha ⊢
              omega
            · exact hdirty x hxd
        · intro hinv x hx hdiff
          rw [← hb']
          by_cases hxa : x = a
          · subst hxa; exact Finset.mem_insert_self _ _
          · refine Finset.mem_insert_of_mem (hinv x ?_ ?_)
            · rw [← hb'] at hx; simpa using hx
            · rw [← hb'] at hdiff
              rw [differs_at] at hdiff ⊢
              simp only [hbn] at hdiff ⊢
              rwa [getD_set_ne _ _ _ _ (fun hh => hxa hh.symm)] at hdiff
        · constructor
          · intro _ hcon
            obtain ⟨hreq, _⟩ := hcon
            rw [← hb'] at hreq
            have hur : ¬ (b.regen_buffer.getD a 0 == rb) = true := by
              intro hh
              rcases hu2 with hur | hue
              · exact hur hh
              · apply hue
                rw [Display.has_eab, hne]
                rfl
            exact set_ne_of_getD_ne _ _ _ ha_reg
              (fun hh => hur (by rw [hh]; simp)) hreq
          · intro _; rfl

/-- After `flush` on a well-formed state satisfying the dirty-superset
invariant, the dirty set is empty and the shadow buffers agree with the
device memory (obtained by applying the issued command) at every address. -/
theorem flush_sync (b : BufferedDisplay) (dev : DeviceMemory)
    (hwf : b.wf) (h : b.dirty.Nonempty)
    (hdr : dev.regen.length = b.buffer_length)
    (hde : b.has_eab = true → dev.eab.length = b.buffer_length)
    (hinv : dirty_inv b dev) :
    ∃ b' cmd, b.flush = (b', [cmd], true) ∧ b'.dirty = ∅ ∧
      ∀ x ∈ Finset.range b.buffer_length,
        differs_at b' (apply_commands dev [cmd]) x = false := by
  have hwf' := hwf
  obtain ⟨hcols, hreglen, hsome, helen, hdirty⟩ := hwf
  have hhi_mem : b.dirty.max' h ∈ b.dirty := Finset.max'_mem _ h
  have hlo_mem : b.dirty.min' h ∈ b.dirty := Finset.min'_mem _ h
  have hlohi : b.dirty.min' h ≤ b.dirty.max' h := Finset.min'_le _ _ hhi_mem
  have hhilast : b.dirty.max' h ≤ b.last_address := hdirty _ hhi_mem
  have hbl_pos : 0 < b.buffer_length := Nat.mul_pos (Nat.succ_pos _) hcols
  have hlast_lt : b.last_address < b.buffer_length := by
    rw [Display.last_address]; omega
  have hhi_reg : b.dirty.max' h < b.regen_buffer.length := by
    rw [hreglen]; omega
  have hslice_len : (buffer_slice b.regen_buffer (b.dirty.min' h)
      (b.dirty.max' h)).length = b.dirty.max' h + 1 - b.dirty.min' h :=
    buffer_slice_length _ _ _ hlohi hhi_reg
  refine ⟨_, _, flush_spec b hwf' h, rfl, ?_⟩
  intro x hxr
  have hx : x < b.buffer_length := Finset.mem_range.mp hxr
  by_cases hxin : b.dirty.min' h ≤ x ∧ x ≤ b.dirty.max' h
  · -- inside the flushed span: the device now holds the buffer bytes
    rcases heb : b.eab_buffer with _ | buf
    · simp only [flush_command, heb, apply_commands, List.foldl_cons,
        List.foldl_nil, WriteCommand.apply, WriteCommand.regen_plane,
        JumboData.expand, differs_at]
      rw [writeAt_getD_of_mem _ _ _ _ hxin.1
        (by rw [hslice_len]; omega) (by rw [hdr]; exact hx)]
      rw [buffer_slice_getD _ _ _ _ hxin.1 hxin.2]
      simp
    · have hhe : b.has_eab = true := by rw [← hsome, heb]; rfl
      have hbuf_len : buf.length = b.buffer_length := by
        rw [heb] at helen; simpa using helen
      have hhi_buf : b.dirty.max' h < buf.length := by rw [hbuf_len]; omega
      have heslice_len : (buffer_slice buf (b.dirty.min' h)
          (b.dirty.max' h)).length = b.dirty.max' h + 1 - b.dirty.min' h :=
        buffer_slice_length _ _ _ hlohi hhi_buf
      have hlen_eq : (buffer_slice b.regen_buffer (b.dirty.min' h)
            (b.dirty.max' h)).length
          = (buffer_slice buf (b.dirty.min' h) (b.dirty.max' h)).length := by
        rw [hslice_len, heslice_len]
      simp only [flush_command, heb, apply_commands, List.foldl_cons,
        List.foldl_nil, WriteCommand.apply, WriteCommand.regen_plane,
        WriteCommand.eab_plane, JumboData.expand, differs_at]
      rw [evens_interleave _ _ hlen_eq, odds_interleave _ _ hlen_eq]
      rw [writeAt_getD_of_mem _ _ _ _ hxin.1
        (by rw [hslice_len]; omega) (by rw [hdr]; exact hx)]
      rw [writeAt_getD_of_mem _ _ _ _ hxin.1
        (by rw [heslice_len]; omega) (by rw [hde hhe]; exact hx)]
      rw [buffer_slice_getD _ _ _ _ hxin.1 hxin.2,
        buffer_slice_getD _ _ _ _ hxin.1 hxin.2]
      simp
  · -- outside the span: neither the buffer nor the device changed there,
    -- and the invariant says they already agreed
    have hsync : differs_at b dev x = false := by
      by_contra hcon
      rw [Bool.not_eq_false] at hcon
      have hmem := hinv x hxr hcon
      exact hxin ⟨Finset.min'_le _ _ hmem, Finset.le_max' _ _ hmem⟩
    rcases heb : b.eab_buffer with _ | buf
    · rw [differs_at, heb] at hsync
      simp only [Bool.or_false, bne_eq_false_iff_eq] at hsync
      simp only [flush_command, heb, apply_commands, List.foldl_cons,
        List.foldl_nil, WriteCommand.apply, WriteCommand.regen_plane,
        JumboData.expand, differs_at]
      rcases Nat.lt_or_ge x (b.dirty.min' h) with hlt | hge
      · rw [writeAt_getD_of_lt _ _ _ _ hlt, ← hsync]
        simp
      · have : b.dirty.min' h + (buffer_slice b.regen_buffer
            (b.dirty.min' h) (b.dirty.max' h)).length ≤ x := by
          rw [hslice_len]; omega
        rw [writeAt_getD_of_ge _ _ _ _ this, ← hsync]
        simp
    · have hhe : b.has_eab = true := by rw [← hsome, heb]; rfl
      have hbuf_len : buf.length = b.buffer_length := by
        rw [heb] at helen; simpa using helen
      have hhi_buf : b.dirty.max' h < buf.length := by rw [hbuf_len]; omega
      have heslice_len : (buffer_slice buf (b.dirty.min' h)
          (b.dirty.max' h)).length = b.dirty.max' h + 1 - b.dirty.min' h :=
        buffer_slice_length _ _ _ hlohi hhi_buf
      have hlen_eq : (buffer_slice b.regen_buffer (b.dirty.min' h)
            (b.dirty.max' h)).length
          = (buffer_slice buf (b.dirty.min' h) (b.dirty.max' h)).length := by
        rw [hslice_len, heslice_len]
      rw [differs_at, heb] at hsync
      simp only [Bool.or_eq_false_iff, bne_eq_false_iff_eq] at hsync
      simp only [flush_command, heb, apply_commands, List.foldl_cons,
        List.foldl_nil, WriteCommand.apply, WriteCommand.regen_plane,
        WriteCommand.eab_plane, JumboData.expand, differs_at]
      rw [evens_interleave _ _ hlen_eq, odds_interleave _ _ hlen_eq]
      rcases Nat.lt_or_ge x (b.dirty.min' h) with hlt | hge
      · rw [writeAt_getD_of_lt _ _ _ _ hlt,
          writeAt_getD_of_lt _ _ _ _ hlt, ← hsync.1, ← hsync.2]
        simp
      · have h1 : b.dirty.min' h + (buffer_slice b.regen_buffer
            (b.dirty.min' h) (b.dirty.max' h)).length ≤ x := by
          rw [hslice_len]; omega
        have h2 : b.dirty.min' h + (buffer_slice buf
            (b.dirty.min' h) (b.dirty.max' h)).length ≤ x := by
          rw [heslice_len]; omega
        rw [writeAt_getD_of_ge _ _ _ _ h1,
          writeAt_getD_of_ge _ _ _ _ h2, ← hsync.1, ← hsync.2]
        simp

/-- C2 (amended): for every sequence of `buffered_write_byte` calls, the
dirty set contains every address whose buffer content differs from the
last-flushed device state (it may also retain addresses rewritten back to
their flushed value — see the counterexample, which refutes exact
equality); each call returns `True` iff it changed the buffer; and after
`flush()` the dirty set is empty and the buffer matches the device at
every address of the flushed range (indeed everywhere). -/
theorem C2_dirty_tracking :
    (∀ (b : BufferedDisplay) (dev : DeviceMemory) (rb : Nat)
        (eb : Option Nat) (a : Nat) (b' : BufferedDisplay) (chg : Bool),
      b.wf → eb.isSome = b.has_eab →
      b.buffered_write_byte rb eb (some a) none none none = .ok (b', chg) →
      b'.wf ∧ (dirty_inv b dev → dirty_inv b' dev) ∧
        (chg = false → b' = b) ∧
        (chg = true ↔ ¬(b'.regen_buffer = b.regen_buffer ∧
          b'.eab_buffer = b.eab_buffer))) ∧
    (∀ (b : BufferedDisplay) (dev : DeviceMemory) (h : b.dirty.Nonempty),
      b.wf → dev.regen.length = b.buffer_length →
      (b.has_eab = true → dev.eab.length = b.buffer_length) →
      dirty_inv b dev →
      ∃ b' cmd, b.flush = (b', [cmd], true) ∧ b'.dirty = ∅ ∧
        ∀ x ∈ Finset.range b.buffer_length,
          differs_at b' (apply_commands dev [cmd]) x = false) ∧
    (∀ b : BufferedDisplay, b.dirty = ∅ → b.flush = (b, [], false)) :=
  ⟨fun b dev rb eb a b' chg hwf heq hcall =>
      buffered_write_byte_spec b dev rb eb a b' chg hwf heq hcall,
    fun b dev h hwf hdr hde hinv => flush_sync b dev hwf h hdr hde hinv,
    fun b hempty => by
      have hne : ¬ b.dirty.Nonempty := by
        rw [hempty]; exact Finset.not_nonempty_empty
      simp [BufferedDisplay.flush, BufferedDisplay.get_dirty_ranges,
        dif_neg hne]⟩

/-- Witness for C2 on a 1×1 display: writing byte 7 at address 0 into an
all-zero flushed state preserves the invariant and reports a change. -/
theorem C2_dirty_tracking_witness :
    (⟨⟨⟨1, 1⟩, none, none⟩, [7, 0], none, {0}⟩ : BufferedDisplay).wf ∧
      (dirty_inv ⟨⟨⟨1, 1⟩, none, none⟩, [0, 0], none, ∅⟩ ⟨[0, 0], []⟩ →
        dirty_inv ⟨⟨⟨1, 1⟩, none, none⟩, [7, 0], none, {0}⟩ ⟨[0, 0], []⟩) ∧
      (true = false →
        (⟨⟨⟨1, 1⟩, none, none⟩, [7, 0], none, {0}⟩ : BufferedDisplay)
          = ⟨⟨⟨1, 1⟩, none, none⟩, [0, 0], none, ∅⟩) ∧
      (true = true ↔ ¬(([7, 0] : List Nat) = [0, 0] ∧
        (none : Option (List Nat)) = none)) :=
  C2_dirty_tracking.1 ⟨⟨⟨1, 1⟩, none, none⟩, [0, 0], none, ∅⟩ ⟨[0, 0], []⟩
    7 none 0 ⟨⟨⟨1, 1⟩, none, none⟩, [7, 0], none, {0}⟩ true
    (by unfold BufferedDisplay.wf; decide) rfl rfl
